import Mathlib

/-!
Verification of the WindMouse trajectory generator (`src/core.py`) and the
mouse-controller tick contract (`src/pyautogui_controller.py`,
`src/ahk_controller.py`).

The Python code works on IEEE floats; the embedding idealises every float as a
real number, keeping the exact expression structure of the source.  Calls to
the global `np.random.random()` are modelled by an explicit stream
`rng : ℕ → ℝ` together with a consumption index carried in the state: the
k-th call of the program reads `rng k`.  The generator's lazy `yield` loop is
modelled by a fuel-indexed runner that returns the list of yielded points, the
final simulation state, and whether the loop condition `dist >= 1` failed
(normal termination) before the fuel ran out.
-/

noncomputable section

/-- `sqrt3 = np.sqrt(3)` from `core.py`. -/
def sqrt3 : ℝ := Real.sqrt 3

/-- `sqrt5 = np.sqrt(5)` from `core.py`. -/
def sqrt5 : ℝ := Real.sqrt 5

/-- `np.hypot(a, b)`: the Euclidean norm `sqrt (a² + b²)`. -/
def hypot (a b : ℝ) : ℝ := Real.sqrt (a ^ 2 + b ^ 2)

/-- `int(np.round(x))`: NumPy rounds to the nearest integer, resolving exact
halves to the nearest even integer. -/
def roundHalfEven (x : ℝ) : ℤ :=
  if x - ⌊x⌋ = 1 / 2 then (if ⌊x⌋ % 2 = 0 then ⌊x⌋ else ⌊x⌋ + 1) else round x

/-- The local variables of the `wind_mouse` generator in `core.py`:
`start_x/start_y` are the continuous working position (mutated every step),
`current_x/current_y` the reference used for duplicate suppression,
plus velocity, wind, the four physical parameters (`max_step` is the only
one ever reassigned), and the position in the random-draw stream. -/
@[ext]
structure WindState where
  startX : ℝ
  startY : ℝ
  destX : ℝ
  destY : ℝ
  currentX : ℝ
  currentY : ℝ
  velocityX : ℝ
  velocityY : ℝ
  windX : ℝ
  windY : ℝ
  gravityMagnitude : ℝ
  windMagnitude : ℝ
  maxStep : ℝ
  dampedDistance : ℝ
  rngIdx : ℕ

/-- `dist := np.hypot(dest_x - start_x, dest_y - start_y)` at the loop head. -/
def windDist (s : WindState) : ℝ := hypot (s.destX - s.startX) (s.destY - s.startY)

/-- State at entry of `wind_mouse`: `current = start`, zero velocity and wind,
parameters stored exactly as passed (no validation occurs in the source). -/
def windMouseInit (sx sy dx dy g w m d : ℝ) : WindState :=
  { startX := sx, startY := sy, destX := dx, destY := dy,
    currentX := sx, currentY := sy,
    velocityX := 0, velocityY := 0, windX := 0, windY := 0,
    gravityMagnitude := g, windMagnitude := w, maxStep := m, dampedDistance := d,
    rngIdx := 0 }

/-- Wind / `max_step` update of one loop iteration (`core.py` lines 40-56):
in the free regime (`dist >= damped_distance`) both wind components get an
independent uniform draw scaled by `min(wind_magnitude, dist) / sqrt5`;
otherwise wind only decays and `max_step` is refreshed (if below 3) or
divided by `sqrt5`. -/
def windPhase (rng : ℕ → ℝ) (s : WindState) : WindState :=
  if windDist s ≥ s.dampedDistance then
    { s with
      windX := s.windX / sqrt3 +
        (2 * rng s.rngIdx - 1) * min s.windMagnitude (windDist s) / sqrt5,
      windY := s.windY / sqrt3 +
        (2 * rng (s.rngIdx + 1) - 1) * min s.windMagnitude (windDist s) / sqrt5,
      rngIdx := s.rngIdx + 2 }
  else if s.maxStep < 3 then
    { s with windX := s.windX / sqrt3, windY := s.windY / sqrt3,
             maxStep := rng s.rngIdx * 3 + 3, rngIdx := s.rngIdx + 1 }
  else
    { s with windX := s.windX / sqrt3, windY := s.windY / sqrt3,
             maxStep := s.maxStep / sqrt5 }

/-- `velocity_x += wind_x + gravity_magnitude * (dest_x - start_x) / dist`
(`core.py` line 57; `windPhase` leaves `start`/`dest` untouched, so
recomputing `windDist` here gives the same `dist` as at the loop head). -/
def accVX (s : WindState) : ℝ :=
  s.velocityX + s.windX + s.gravityMagnitude * (s.destX - s.startX) / windDist s

/-- `velocity_y += wind_y + gravity_magnitude * (dest_y - start_y) / dist`. -/
def accVY (s : WindState) : ℝ :=
  s.velocityY + s.windY + s.gravityMagnitude * (s.destY - s.startY) / windDist s

/-- Velocity accumulation and clipping of one iteration (`core.py` lines
57-63): if the accumulated magnitude exceeds `max_step`, the velocity is
rescaled to `max_step / 2 + random() * max_step / 2`, one draw for both
axes. -/
def velocityPhase (rng : ℕ → ℝ) (s : WindState) : WindState :=
  if hypot (accVX s) (accVY s) > s.maxStep then
    { s with
      velocityX := accVX s / hypot (accVX s) (accVY s) *
        (s.maxStep / 2 + rng s.rngIdx * s.maxStep / 2),
      velocityY := accVY s / hypot (accVX s) (accVY s) *
        (s.maxStep / 2 + rng s.rngIdx * s.maxStep / 2),
      rngIdx := s.rngIdx + 1 }
  else
    { s with velocityX := accVX s, velocityY := accVY s }

/-- Position update and emission check of one iteration (`core.py` lines
64-70): the continuous position advances by the velocity, is rounded, and the
rounded point is yielded iff it differs from `current`; on a yield the source
stores the *continuous* position `(start_x, start_y)` into
`(current_x, current_y)` (not the rounded point). -/
def movePhase (s : WindState) : WindState × Option (ℤ × ℤ) :=
  if s.currentX ≠ (roundHalfEven (s.startX + s.velocityX) : ℝ) ∨
     s.currentY ≠ (roundHalfEven (s.startY + s.velocityY) : ℝ) then
    ({ s with startX := s.startX + s.velocityX, startY := s.startY + s.velocityY,
              currentX := s.startX + s.velocityX, currentY := s.startY + s.velocityY },
     some (roundHalfEven (s.startX + s.velocityX), roundHalfEven (s.startY + s.velocityY)))
  else
    ({ s with startX := s.startX + s.velocityX, startY := s.startY + s.velocityY }, none)

/-- One full iteration of the `while` body of `wind_mouse`. -/
def windStep (rng : ℕ → ℝ) (s : WindState) : WindState × Option (ℤ × ℤ) :=
  movePhase (velocityPhase rng (windPhase rng s))

/-- Fuel-indexed execution of the `while (dist := ...) >= 1` loop of
`wind_mouse`: returns the yielded points in order, the final state, and
`true` iff the loop condition failed within the given fuel. -/
def windRun (rng : ℕ → ℝ) : ℕ → WindState → List (ℤ × ℤ) × WindState × Bool
  | 0, s => ([], s, false)
  | n + 1, s =>
    if windDist s ≥ 1 then
      ((windStep rng s).2.toList ++ (windRun rng n (windStep rng s).1).1,
        (windRun rng n (windStep rng s).1).2)
    else ([], s, true)

/-- Relation between the stored `current` reference, the continuous position
and the last yielded point: after any yield, the last yielded point is the
rounding of the continuous position, and `current` is either (the cast of)
that point or the continuous position itself. -/
def lastYieldInv (s : WindState) (e : ℤ × ℤ) : Prop :=
  e.1 = roundHalfEven s.startX ∧ e.2 = roundHalfEven s.startY ∧
    ((s.currentX = (e.1 : ℝ) ∧ s.currentY = (e.2 : ℝ)) ∨
     (s.currentX = s.startX ∧ s.currentY = s.startY))

/-- Controller state: the points the live generator for the current target
has yet to yield. -/
structure MouseController where
  remaining : List (ℤ × ℤ)

/-- Modelled from the spec: `AbstractMouseController._get_next_point` is not
among the provided sources (only its callers in the two controllers are).
Per the spec it pulls the next coordinate from the live trajectory generator
for the current target and signals exhaustion: it returns the next yielded
point, or `none` once the generator is exhausted, and an exhausted generator
stays exhausted for an unchanged target. -/
def getNextPoint (c : MouseController) : Option (ℤ × ℤ) × MouseController :=
  match c.remaining with
  | [] => (none, c)
  | p :: ps => (some p, ⟨ps⟩)

/-- Result of one `tick()`: its boolean return value, the backend `move`
calls it performed, and the controller state afterwards. -/
structure TickResult where
  moved : Bool
  backendMoves : List (ℤ × ℤ)
  ctrl : MouseController

/-- `PyautoguiMouseController.tick` (and identically `AHKMouseController.tick`):
pull the next point; if `None` return `False` with no backend call, else
forward the point to the backend move primitive and return `True`. -/
def tick (c : MouseController) : TickResult :=
  match getNextPoint c with
  | (none, c₁) => ⟨false, [], c₁⟩
  | (some p, c₁) => ⟨true, [p], c₁⟩

/-- Controller state after `n` successive `tick()` calls. -/
def tickIter (c : MouseController) : ℕ → MouseController
  | 0 => c
  | n + 1 => (tick (tickIter c n)).ctrl

/-- A controller whose generator for the target `(dx, dy)` is a `wind_mouse`
generator run with the given draw stream and fuel. -/
def mkController (sx sy dx dy g w m d : ℝ) (rng : ℕ → ℝ) (fuel : ℕ) : MouseController :=
  ⟨(windRun rng fuel (windMouseInit sx sy dx dy g w m d)).1⟩

/-- Draw stream for the duplicate-yield run: the two velocity-clip draws
(call indices 2 and 5) are `0` and `1/6`, every wind draw is `1/2` (so the
uniform `2 r - 1` factor vanishes and the wind stays zero). -/
def rngC1 : ℕ → ℝ := fun n => if n = 2 then 0 else if n = 5 then 1 / 6 else 1 / 2

/-- Initial state of the duplicate-yield run:
`wind_mouse(0, 0, 100, 0, gravity=5, wind=3, max_step=1.2, damped=12)`. -/
def c1s0 : WindState :=
  { startX := 0, startY := 0, destX := 100, destY := 0,
    currentX := 0, currentY := 0, velocityX := 0, velocityY := 0,
    windX := 0, windY := 0, gravityMagnitude := 5, windMagnitude := 3,
    maxStep := 1.2, dampedDistance := 12, rngIdx := 0 }

/-- Duplicate-yield run after the wind phase of step 1 (wind stays 0). -/
def c1s0a : WindState :=
  { c1s0 with rngIdx := 2 }

/-- Duplicate-yield run after the velocity phase of step 1: the accumulated
velocity 5 is clipped to `1.2 / 2 + 0 * 1.2 / 2 = 0.6`. -/
def c1s0b : WindState :=
  { c1s0 with velocityX := 0.6, rngIdx := 3 }

/-- Duplicate-yield run after step 1: position 0.6 rounds to 1, which is
yielded; `current` is set to the continuous 0.6. -/
def c1s1 : WindState :=
  { c1s0 with startX := 0.6, currentX := 0.6, velocityX := 0.6, rngIdx := 3 }

/-- Duplicate-yield run after the wind phase of step 2. -/
def c1s1a : WindState :=
  { c1s1 with rngIdx := 5 }

/-- Duplicate-yield run after the velocity phase of step 2: the accumulated
velocity 5.6 is clipped to `0.6 + (1/6) * 0.6 = 0.7`. -/
def c1s1b : WindState :=
  { c1s1 with velocityX := 0.7, rngIdx := 6 }

/-- Duplicate-yield run after step 2: position 1.3 rounds to 1 again, and
since `current = 0.6 ≠ 1` the point `(1, 0)` is yielded a second time. -/
def c1s2 : WindState :=
  { c1s0 with startX := 1.3, currentX := 1.3, velocityX := 0.7, rngIdx := 6 }

/-- Draw stream for the convergence counterexample: draw 3 (the step-2 wind-y
draw) is `(13 * sqrt5 + 40) / 80`, i.e. the uniform factor `2 r - 1` equals
`(13/40) * sqrt5`; all other draws are `1/2`. -/
def rngC2 : ℕ → ℝ := fun n => if n = 3 then (13 * sqrt5 + 40) / 80 else 1 / 2

/-- Initial state of the convergence counterexample:
`wind_mouse(0, 0, 2, 0, gravity=0.4, wind=2, max_step=1.2, damped=0.5)`. -/
def c2s0 : WindState :=
  { startX := 0, startY := 0, destX := 2, destY := 0,
    currentX := 0, currentY := 0, velocityX := 0, velocityY := 0,
    windX := 0, windY := 0, gravityMagnitude := 0.4, windMagnitude := 2,
    maxStep := 1.2, dampedDistance := 0.5, rngIdx := 0 }

/-- Convergence counterexample after the wind phase of step 1 (wind stays 0). -/
def c2s0a : WindState :=
  { c2s0 with rngIdx := 2 }

/-- Convergence counterexample after the velocity phase of step 1: the
accumulated velocity 0.4 is below `max_step`, so it is not clipped. -/
def c2s0b : WindState :=
  { c2s0 with velocityX := 0.4, rngIdx := 2 }

/-- Convergence counterexample after step 1: position 0.4 rounds to 0, equal
to `current = (0, 0)`, so the step is silent. -/
def c2s1 : WindState :=
  { c2s0 with startX := 0.4, velocityX := 0.4, rngIdx := 2 }

/-- Convergence counterexample after the wind phase of step 2: the y wind
draw contributes `(13/40) * sqrt5 * min 2 1.6 / sqrt5 = 0.52`. -/
def c2s1a : WindState :=
  { c2s1 with windY := 0.52, rngIdx := 4 }

/-- Convergence counterexample after the velocity phase of step 2: velocity
`(0.8, 0.52)` has magnitude `sqrt 0.9104 ≤ 1.2`, so no clipping. -/
def c2s1b : WindState :=
  { c2s1 with velocityX := 0.8, velocityY := 0.52, windY := 0.52, rngIdx := 4 }

/-- Convergence counterexample after step 2: position `(1.2, 0.52)` rounds to
`(1, 1)`, which is yielded; the remaining distance to `(2, 0)` is
`sqrt 0.9104 < 1`, so the loop then terminates. -/
def c2s2 : WindState :=
  { c2s0 with startX := 1.2, startY := 0.52, currentX := 1.2, currentY := 0.52,
              velocityX := 0.8, velocityY := 0.52, windY := 0.52, rngIdx := 4 }

/-- Initial state of the invalid-parameter run:
`wind_mouse(0, 0, 10, 0, gravity=9, wind=3, max_step=-1, damped=12)`; the
non-positive `max_step` is accepted unchecked. -/
def c3s0 : WindState :=
  { startX := 0, startY := 0, destX := 10, destY := 0,
    currentX := 0, currentY := 0, velocityX := 0, velocityY := 0,
    windX := 0, windY := 0, gravityMagnitude := 9, windMagnitude := 3,
    maxStep := -1, dampedDistance := 12, rngIdx := 0 }

/-- Invalid-parameter run after the wind phase of step 1: distance 10 is in
the damped regime and `max_step = -1 < 3` is refreshed to `0 * 3 + 3 = 3`. -/
def c3s0a : WindState :=
  { c3s0 with maxStep := 3, rngIdx := 1 }

/-- Invalid-parameter run after the velocity phase of step 1: the accumulated
velocity 9 is clipped to `3 / 2 + 0 * 3 / 2 = 1.5`. -/
def c3s0b : WindState :=
  { c3s0 with maxStep := 3, velocityX := 1.5, rngIdx := 2 }

/-- Invalid-parameter run after step 1: position 1.5 rounds (half-to-even)
to 2 and `(2, 0)` is yielded. -/
def c3s1 : WindState :=
  { c3s0 with startX := 1.5, currentX := 1.5, velocityX := 1.5,
              maxStep := 3, rngIdx := 2 }

lemma hypot_nonneg (a b : ℝ) : 0 ≤ hypot a b := Real.sqrt_nonneg _

lemma hypot_of_sq {a b c : ℝ} (hc : 0 ≤ c) (h : a ^ 2 + b ^ 2 = c ^ 2) :
    hypot a b = c := by
  rw [hypot, h, Real.sqrt_sq hc]

lemma hypot_le_of_sq_le {a b c : ℝ} (hc : 0 ≤ c) (h : a ^ 2 + b ^ 2 ≤ c ^ 2) :
    hypot a b ≤ c := by
  rw [hypot]
  calc Real.sqrt (a ^ 2 + b ^ 2) ≤ Real.sqrt (c ^ 2) := Real.sqrt_le_sqrt h
    _ = c := Real.sqrt_sq hc

lemma hypot_lt_of_sq_lt {a b c : ℝ} (hc : 0 ≤ c) (h : a ^ 2 + b ^ 2 < c ^ 2) :
    hypot a b < c := by
  rw [hypot]
  have h2 := Real.sqrt_lt_sqrt (by positivity) h
  rwa [Real.sqrt_sq hc] at h2

lemma lt_hypot_of_sq_lt {a b c : ℝ} (h : c ^ 2 < a ^ 2 + b ^ 2) (hc : 0 ≤ c) :
    c < hypot a b := by
  rw [hypot]
  exact (Real.lt_sqrt hc).mpr h

lemma abs_le_hypot (a b : ℝ) : |a| ≤ hypot a b := by
  rw [hypot, ← Real.sqrt_sq_eq_abs]
  exact Real.sqrt_le_sqrt (by nlinarith [sq_nonneg b])

lemma hypot_mul (c a b : ℝ) : hypot (c * a) (c * b) = |c| * hypot a b := by
  rw [hypot, hypot, show (c * a) ^ 2 + (c * b) ^ 2 = c ^ 2 * (a ^ 2 + b ^ 2) by ring,
    Real.sqrt_mul (sq_nonneg c), Real.sqrt_sq_eq_abs]

lemma hypot_neg_neg (a b : ℝ) : hypot (-a) (-b) = hypot a b := by
  rw [hypot, hypot, neg_pow, neg_pow]
  norm_num

lemma hypot_sq (a b : ℝ) : hypot a b ^ 2 = a ^ 2 + b ^ 2 := by
  rw [hypot, Real.sq_sqrt (by positivity)]

lemma hypot_add_le (a b c d : ℝ) :
    hypot (a + c) (b + d) ≤ hypot a b + hypot c d := by
  have h1 : 0 ≤ hypot a b + hypot c d := add_nonneg (hypot_nonneg a b) (hypot_nonneg c d)
  apply hypot_le_of_sq_le h1
  have hab := hypot_sq a b
  have hcd := hypot_sq c d
  have cs : a * c + b * d ≤ hypot a b * hypot c d := by
    have h2 : (a * c + b * d) ^ 2 ≤ (a ^ 2 + b ^ 2) * (c ^ 2 + d ^ 2) := by
      nlinarith [sq_nonneg (a * d - b * c)]
    have h3 : hypot a b * hypot c d = Real.sqrt ((a ^ 2 + b ^ 2) * (c ^ 2 + d ^ 2)) := by
      rw [hypot, hypot, ← Real.sqrt_mul (by positivity)]
    calc a * c + b * d ≤ |a * c + b * d| := le_abs_self _
      _ = Real.sqrt ((a * c + b * d) ^ 2) := (Real.sqrt_sq_eq_abs _).symm
      _ ≤ Real.sqrt ((a ^ 2 + b ^ 2) * (c ^ 2 + d ^ 2)) := Real.sqrt_le_sqrt h2
      _ = hypot a b * hypot c d := h3.symm
  nlinarith [hab, hcd, cs]

lemma roundHalfEven_intCast (n : ℤ) : roundHalfEven (n : ℝ) = n := by
  rw [roundHalfEven, if_neg, round_intCast]
  rw [Int.floor_intCast]
  norm_num

lemma abs_roundHalfEven_sub_le (x : ℝ) : |(roundHalfEven x : ℝ) - x| ≤ 1 / 2 := by
  rw [roundHalfEven]
  split_ifs with h1 h2
  · have h3 : (⌊x⌋ : ℝ) - x = -(1 / 2) := by linarith
    rw [h3, abs_neg, abs_of_nonneg (by norm_num : (0:ℝ) ≤ 1 / 2)]
  · have h3 : ((⌊x⌋ + 1 : ℤ) : ℝ) - x = 1 / 2 := by push_cast; linarith
    rw [h3, abs_of_nonneg (by norm_num : (0:ℝ) ≤ 1 / 2)]
  · rw [abs_sub_comm]
    exact abs_sub_round x

lemma windRun_zero (rng : ℕ → ℝ) (s : WindState) : windRun rng 0 s = ([], s, false) := rfl

lemma windRun_succ (rng : ℕ → ℝ) (n : ℕ) (s : WindState) :
    windRun rng (n + 1) s =
      if windDist s ≥ 1 then
        ((windStep rng s).2.toList ++ (windRun rng n (windStep rng s).1).1,
          (windRun rng n (windStep rng s).1).2)
      else ([], s, true) := rfl

lemma c1_dist0 : windDist c1s0 = 100 := by
  have h : windDist c1s0 = hypot 100 0 := by
    simp only [windDist, c1s0]
    norm_num
  rw [h]
  exact hypot_of_sq (by norm_num) (by norm_num)

lemma c1_phaseA : windPhase rngC1 c1s0 = c1s0a := by
  unfold windPhase
  rw [if_pos (by rw [c1_dist0]; simp only [c1s0]; norm_num)]
  simp only [c1s0, c1s0a, rngC1, c1_dist0]
  norm_num

lemma c1_phaseB : velocityPhase rngC1 c1s0a = c1s0b := by
  have hd : windDist c1s0a = (100:ℝ) := c1_dist0
  have haX : accVX c1s0a = 5 := by
    rw [accVX, hd]
    simp only [c1s0a, c1s0]
    norm_num
  have haY : accVY c1s0a = 0 := by
    rw [accVY, hd]
    simp only [c1s0a, c1s0]
    norm_num
  have hmag : hypot (accVX c1s0a) (accVY c1s0a) = 5 := by
    rw [haX, haY]
    exact hypot_of_sq (by norm_num) (by norm_num)
  unfold velocityPhase
  rw [if_pos (by rw [hmag]; simp only [c1s0a, c1s0]; norm_num)]
  rw [hmag, haX, haY]
  simp only [c1s0a, c1s0b, c1s0, rngC1]
  norm_num

lemma c1_moveA : movePhase c1s0b = (c1s1, some (1, 0)) := by
  have hrx : roundHalfEven (c1s0b.startX + c1s0b.velocityX) = 1 := by
    simp only [c1s0b, c1s0]
    norm_num [roundHalfEven, round_eq]
  have hry : roundHalfEven (c1s0b.startY + c1s0b.velocityY) = 0 := by
    simp only [c1s0b, c1s0]
    norm_num [roundHalfEven, round_eq]
  unfold movePhase
  rw [hrx, hry]
  rw [if_pos (Or.inl (by simp only [c1s0b, c1s0]; norm_num))]
  simp only [c1s0b, c1s1, c1s0]
  norm_num

lemma c1_step1 : windStep rngC1 c1s0 = (c1s1, some (1, 0)) := by
  rw [windStep, c1_phaseA, c1_phaseB, c1_moveA]

lemma c1_dist1 : windDist c1s1 = 99.4 := by
  have h : windDist c1s1 = hypot 99.4 0 := by
    simp only [windDist, c1s1, c1s0]
    norm_num
  rw [h]
  exact hypot_of_sq (by norm_num) (by norm_num)

lemma c1_phaseA2 : windPhase rngC1 c1s1 = c1s1a := by
  unfold windPhase
  rw [if_pos (by rw [c1_dist1]; simp only [c1s1, c1s0]; norm_num)]
  simp only [c1s1, c1s1a, c1s0, rngC1, c1_dist1]
  norm_num

lemma c1_phaseB2 : velocityPhase rngC1 c1s1a = c1s1b := by
  have hd : windDist c1s1a = (99.4:ℝ) := c1_dist1
  have haX : accVX c1s1a = 5.6 := by
    rw [accVX, hd]
    simp only [c1s1a, c1s1, c1s0]
    norm_num
  have haY : accVY c1s1a = 0 := by
    rw [accVY, hd]
    simp only [c1s1a, c1s1, c1s0]
    norm_num
  have hmag : hypot (accVX c1s1a) (accVY c1s1a) = 5.6 := by
    rw [haX, haY]
    exact hypot_of_sq (by norm_num) (by norm_num)
  unfold velocityPhase
  rw [if_pos (by rw [hmag]; simp only [c1s1a, c1s1, c1s0]; norm_num)]
  rw [hmag, haX, haY]
  simp only [c1s1a, c1s1b, c1s1, c1s0, rngC1]
  norm_num

lemma c1_moveA2 : movePhase c1s1b = (c1s2, some (1, 0)) := by
  have hrx : roundHalfEven (c1s1b.startX + c1s1b.velocityX) = 1 := by
    simp only [c1s1b, c1s1, c1s0]
    norm_num [roundHalfEven, round_eq]
  have hry : roundHalfEven (c1s1b.startY + c1s1b.velocityY) = 0 := by
    simp only [c1s1b, c1s1, c1s0]
    norm_num [roundHalfEven, round_eq]
  unfold movePhase
  rw [hrx, hry]
  rw [if_pos (Or.inl (by simp only [c1s1b, c1s1, c1s0]; norm_num))]
  simp only [c1s1b, c1s2, c1s1, c1s0]
  norm_num

lemma c1_step2 : windStep rngC1 c1s1 = (c1s2, some (1, 0)) := by
  rw [windStep, c1_phaseA2, c1_phaseB2, c1_moveA2]

lemma c1_run : windRun rngC1 2 c1s0 = ([(1, 0), (1, 0)], c1s2, false) := by
  rw [show (2:ℕ) = 1 + 1 from rfl, windRun_succ,
    if_pos (by rw [c1_dist0]; norm_num), c1_step1]
  rw [show (1:ℕ) = 0 + 1 from rfl]
  rw [windRun_succ]
  rw [if_pos (by rw [c1_dist1]; norm_num), c1_step2]
  rfl

lemma c2_dist0 : windDist c2s0 = 2 := by
  have h : windDist c2s0 = hypot 2 0 := by
    simp only [windDist, c2s0]
    norm_num
  rw [h]
  exact hypot_of_sq (by norm_num) (by norm_num)

lemma c2_phaseA : windPhase rngC2 c2s0 = c2s0a := by
  unfold windPhase
  rw [if_pos (by rw [c2_dist0]; simp only [c2s0]; norm_num)]
  simp only [c2s0, c2s0a, rngC2, c2_dist0]
  norm_num

lemma c2_phaseB : velocityPhase rngC2 c2s0a = c2s0b := by
  have hd : windDist c2s0a = (2:ℝ) := c2_dist0
  have haX : accVX c2s0a = 0.4 := by
    rw [accVX, hd]
    simp only [c2s0a, c2s0]
    norm_num
  have haY : accVY c2s0a = 0 := by
    rw [accVY, hd]
    simp only [c2s0a, c2s0]
    norm_num
  have hle : hypot (accVX c2s0a) (accVY c2s0a) ≤ 1.2 := by
    rw [haX, haY]
    exact hypot_le_of_sq_le (by norm_num) (by norm_num)
  unfold velocityPhase
  rw [if_neg (by simp only [c2s0a, c2s0] at hle ⊢; exact not_lt.mpr hle)]
  rw [haX, haY]
  simp only [c2s0a, c2s0b, c2s0]

lemma c2_move1 : movePhase c2s0b = (c2s1, none) := by
  have hrx : roundHalfEven (c2s0b.startX + c2s0b.velocityX) = 0 := by
    simp only [c2s0b, c2s0]
    norm_num [roundHalfEven, round_eq]
  have hry : roundHalfEven (c2s0b.startY + c2s0b.velocityY) = 0 := by
    simp only [c2s0b, c2s0]
    norm_num [roundHalfEven, round_eq]
  unfold movePhase
  rw [hrx, hry]
  rw [if_neg (by simp only [c2s0b, c2s0]; push_neg; norm_num)]
  simp only [c2s0b, c2s1, c2s0]
  norm_num

lemma c2_step1 : windStep rngC2 c2s0 = (c2s1, none) := by
  rw [windStep, c2_phaseA, c2_phaseB, c2_move1]

lemma c2_dist1 : windDist c2s1 = 1.6 := by
  have h : windDist c2s1 = hypot 1.6 0 := by
    simp only [windDist, c2s1, c2s0]
    norm_num
  rw [h]
  exact hypot_of_sq (by norm_num) (by norm_num)

lemma c2_phaseA2 : windPhase rngC2 c2s1 = c2s1a := by
  have h5 : sqrt5 ≠ 0 := by
    rw [sqrt5]
    positivity
  unfold windPhase
  rw [if_pos (by rw [c2_dist1]; simp only [c2s1, c2s0]; norm_num)]
  rw [c2_dist1]
  simp only [c2s1, c2s1a, c2s0, rngC2]
  norm_num
  field_simp
  ring

lemma c2_phaseB2 : velocityPhase rngC2 c2s1a = c2s1b := by
  have hd : windDist c2s1a = (1.6:ℝ) := c2_dist1
  have haX : accVX c2s1a = 0.8 := by
    rw [accVX, hd]
    simp only [c2s1a, c2s1, c2s0]
    norm_num
  have haY : accVY c2s1a = 0.52 := by
    rw [accVY, hd]
    simp only [c2s1a, c2s1, c2s0]
    norm_num
  have hle : hypot (accVX c2s1a) (accVY c2s1a) ≤ 1.2 := by
    rw [haX, haY]
    exact hypot_le_of_sq_le (by norm_num) (by norm_num)
  unfold velocityPhase
  rw [if_neg (by simp only [c2s1a, c2s1, c2s0] at hle ⊢; exact not_lt.mpr hle)]
  rw [haX, haY]
  simp only [c2s1a, c2s1b, c2s1, c2s0]

lemma c2_move2 : movePhase c2s1b = (c2s2, some (1, 1)) := by
  have hrx : roundHalfEven (c2s1b.startX + c2s1b.velocityX) = 1 := by
    simp only [c2s1b, c2s1, c2s0]
    norm_num [roundHalfEven, round_eq]
  have hry : roundHalfEven (c2s1b.startY + c2s1b.velocityY) = 1 := by
    simp only [c2s1b, c2s1, c2s0]
    norm_num [roundHalfEven, round_eq]
  unfold movePhase
  rw [hrx, hry]
  rw [if_pos (Or.inl (by simp only [c2s1b, c2s1, c2s0]; norm_num))]
  simp only [c2s1b, c2s2, c2s1, c2s0]
  norm_num

lemma c2_step2 : windStep rngC2 c2s1 = (c2s2, some (1, 1)) := by
  rw [windStep, c2_phaseA2, c2_phaseB2, c2_move2]

lemma c2_dist2 : windDist c2s2 < 1 := by
  have h : windDist c2s2 = hypot 0.8 (-0.52) := by
    simp only [windDist, c2s2, c2s0]
    norm_num
  rw [h]
  exact hypot_lt_of_sq_lt (by norm_num) (by norm_num)

lemma c2_run : windRun rngC2 3 c2s0 = ([(1, 1)], c2s2, true) := by
  rw [show (3:ℕ) = 2 + 1 from rfl, windRun_succ,
    if_pos (by rw [c2_dist0]; norm_num), c2_step1]
  rw [show (2:ℕ) = 1 + 1 from rfl]
  rw [windRun_succ]
  rw [if_pos (by rw [c2_dist1]; norm_num), c2_step2]
  rw [show (1:ℕ) = 0 + 1 from rfl]
  rw [windRun_succ]
  rw [if_neg (not_le.mpr c2_dist2)]
  rfl

lemma c3_dist0 : windDist c3s0 = 10 := by
  have h : windDist c3s0 = hypot 10 0 := by
    simp only [windDist, c3s0]
    norm_num
  rw [h]
  exact hypot_of_sq (by norm_num) (by norm_num)

lemma c3_phaseA : windPhase (fun _ => 0) c3s0 = c3s0a := by
  unfold windPhase
  rw [if_neg (by rw [c3_dist0]; simp only [c3s0]; norm_num)]
  rw [if_pos (by simp only [c3s0]; norm_num)]
  simp only [c3s0, c3s0a]
  norm_num

lemma c3_phaseB : velocityPhase (fun _ => 0) c3s0a = c3s0b := by
  have hd : windDist c3s0a = (10:ℝ) := c3_dist0
  have haX : accVX c3s0a = 9 := by
    rw [accVX, hd]
    simp only [c3s0a, c3s0]
    norm_num
  have haY : accVY c3s0a = 0 := by
    rw [accVY, hd]
    simp only [c3s0a, c3s0]
    norm_num
  have hmag : hypot (accVX c3s0a) (accVY c3s0a) = 9 := by
    rw [haX, haY]
    exact hypot_of_sq (by norm_num) (by norm_num)
  unfold velocityPhase
  rw [if_pos (by rw [hmag]; simp only [c3s0a, c3s0]; norm_num)]
  rw [hmag, haX, haY]
  simp only [c3s0a, c3s0b, c3s0]
  norm_num

lemma c3_moveA : movePhase c3s0b = (c3s1, some (2, 0)) := by
  have hrx : roundHalfEven (c3s0b.startX + c3s0b.velocityX) = 2 := by
    simp only [c3s0b, c3s0]
    norm_num [roundHalfEven]
  have hry : roundHalfEven (c3s0b.startY + c3s0b.velocityY) = 0 := by
    simp only [c3s0b, c3s0]
    norm_num [roundHalfEven, round_eq]
  unfold movePhase
  rw [hrx, hry]
  rw [if_pos (Or.inl (by simp only [c3s0b, c3s0]; norm_num))]
  simp only [c3s0b, c3s1, c3s0]
  norm_num

lemma c3_step1 : windStep (fun _ => 0) c3s0 = (c3s1, some (2, 0)) := by
  rw [windStep, c3_phaseA, c3_phaseB, c3_moveA]

lemma c3_run : windRun (fun _ => 0) 1 c3s0 = ([(2, 0)], c3s1, false) := by
  rw [show (1:ℕ) = 0 + 1 from rfl, windRun_succ,
    if_pos (by rw [c3_dist0]; norm_num), c3_step1]
  rfl

@[simp] lemma windPhase_startX (rng : ℕ → ℝ) (s : WindState) : (windPhase rng s).startX = s.startX := by unfold windPhase; split_ifs <;> rfl

@[simp] lemma windPhase_startY (rng : ℕ → ℝ) (s : WindState) : (windPhase rng s).startY = s.startY := by unfold windPhase; split_ifs <;> rfl

@[simp] lemma windPhase_destX (rng : ℕ → ℝ) (s : WindState) : (windPhase rng s).destX = s.destX := by unfold windPhase; split_ifs <;> rfl

@[simp] lemma windPhase_destY (rng : ℕ → ℝ) (s : WindState) : (windPhase rng s).destY = s.destY := by unfold windPhase; split_ifs <;> rfl

@[simp] lemma windPhase_currentX (rng : ℕ → ℝ) (s : WindState) : (windPhase rng s).currentX = s.currentX := by unfold windPhase; split_ifs <;> rfl

@[simp] lemma windPhase_currentY (rng : ℕ → ℝ) (s : WindState) : (windPhase rng s).currentY = s.currentY := by unfold windPhase; split_ifs <;> rfl

@[simp] lemma windPhase_velocityX (rng : ℕ → ℝ) (s : WindState) : (windPhase rng s).velocityX = s.velocityX := by unfold windPhase; split_ifs <;> rfl

@[simp] lemma windPhase_velocityY (rng : ℕ → ℝ) (s : WindState) : (windPhase rng s).velocityY = s.velocityY := by unfold windPhase; split_ifs <;> rfl

@[simp] lemma windPhase_gravity (rng : ℕ → ℝ) (s : WindState) : (windPhase rng s).gravityMagnitude = s.gravityMagnitude := by unfold windPhase; split_ifs <;> rfl

@[simp] lemma windPhase_windMag (rng : ℕ → ℝ) (s : WindState) : (windPhase rng s).windMagnitude = s.windMagnitude := by unfold windPhase; split_ifs <;> rfl

@[simp] lemma windPhase_damped (rng : ℕ → ℝ) (s : WindState) : (windPhase rng s).dampedDistance = s.dampedDistance := by unfold windPhase; split_ifs <;> rfl

@[simp] lemma velocityPhase_startX (rng : ℕ → ℝ) (s : WindState) : (velocityPhase rng s).startX = s.startX := by unfold velocityPhase; split_ifs <;> rfl

@[simp] lemma velocityPhase_startY (rng : ℕ → ℝ) (s : WindState) : (velocityPhase rng s).startY = s.startY := by unfold velocityPhase; split_ifs <;> rfl

@[simp] lemma velocityPhase_destX (rng : ℕ → ℝ) (s : WindState) : (velocityPhase rng s).destX = s.destX := by unfold velocityPhase; split_ifs <;> rfl

@[simp] lemma velocityPhase_destY (rng : ℕ → ℝ) (s : WindState) : (velocityPhase rng s).destY = s.destY := by unfold velocityPhase; split_ifs <;> rfl

@[simp] lemma velocityPhase_currentX (rng : ℕ → ℝ) (s : WindState) : (velocityPhase rng s).currentX = s.currentX := by unfold velocityPhase; split_ifs <;> rfl

@[simp] lemma velocityPhase_currentY (rng : ℕ → ℝ) (s : WindState) : (velocityPhase rng s).currentY = s.currentY := by unfold velocityPhase; split_ifs <;> rfl

@[simp] lemma velocityPhase_windX (rng : ℕ → ℝ) (s : WindState) : (velocityPhase rng s).windX = s.windX := by unfold velocityPhase; split_ifs <;> rfl

@[simp] lemma velocityPhase_windY (rng : ℕ → ℝ) (s : WindState) : (velocityPhase rng s).windY = s.windY := by unfold velocityPhase; split_ifs <;> rfl

@[simp] lemma velocityPhase_gravity (rng : ℕ → ℝ) (s : WindState) : (velocityPhase rng s).gravityMagnitude = s.gravityMagnitude := by unfold velocityPhase; split_ifs <;> rfl

@[simp] lemma velocityPhase_windMag (rng : ℕ → ℝ) (s : WindState) : (velocityPhase rng s).windMagnitude = s.windMagnitude := by unfold velocityPhase; split_ifs <;> rfl

@[simp] lemma velocityPhase_maxStep (rng : ℕ → ℝ) (s : WindState) : (velocityPhase rng s).maxStep = s.maxStep := by unfold velocityPhase; split_ifs <;> rfl

@[simp] lemma velocityPhase_damped (rng : ℕ → ℝ) (s : WindState) : (velocityPhase rng s).dampedDistance = s.dampedDistance := by unfold velocityPhase; split_ifs <;> rfl

@[simp] lemma movePhase_fst_startX (s : WindState) : (movePhase s).1.startX = s.startX + s.velocityX := by unfold movePhase; split_ifs <;> rfl

@[simp] lemma movePhase_fst_startY (s : WindState) : (movePhase s).1.startY = s.startY + s.velocityY := by unfold movePhase; split_ifs <;> rfl

@[simp] lemma movePhase_fst_destX (s : WindState) : (movePhase s).1.destX = s.destX := by unfold movePhase; split_ifs <;> rfl

@[simp] lemma movePhase_fst_destY (s : WindState) : (movePhase s).1.destY = s.destY := by unfold movePhase; split_ifs <;> rfl

@[simp] lemma movePhase_fst_velocityX (s : WindState) : (movePhase s).1.velocityX = s.velocityX := by unfold movePhase; split_ifs <;> rfl

@[simp] lemma movePhase_fst_velocityY (s : WindState) : (movePhase s).1.velocityY = s.velocityY := by unfold movePhase; split_ifs <;> rfl

@[simp] lemma movePhase_fst_windX (s : WindState) : (movePhase s).1.windX = s.windX := by unfold movePhase; split_ifs <;> rfl

@[simp] lemma movePhase_fst_windY (s : WindState) : (movePhase s).1.windY = s.windY := by unfold movePhase; split_ifs <;> rfl

@[simp] lemma movePhase_fst_gravity (s : WindState) : (movePhase s).1.gravityMagnitude = s.gravityMagnitude := by unfold movePhase; split_ifs <;> rfl

@[simp] lemma movePhase_fst_windMag (s : WindState) : (movePhase s).1.windMagnitude = s.windMagnitude := by unfold movePhase; split_ifs <;> rfl

@[simp] lemma movePhase_fst_maxStep (s : WindState) : (movePhase s).1.maxStep = s.maxStep := by unfold movePhase; split_ifs <;> rfl

@[simp] lemma movePhase_fst_damped (s : WindState) : (movePhase s).1.dampedDistance = s.dampedDistance := by unfold movePhase; split_ifs <;> rfl

lemma windStep_params (rng : ℕ → ℝ) (s : WindState) :
    (windStep rng s).1.destX = s.destX ∧ (windStep rng s).1.destY = s.destY ∧
    (windStep rng s).1.gravityMagnitude = s.gravityMagnitude ∧
    (windStep rng s).1.windMagnitude = s.windMagnitude ∧
    (windStep rng s).1.dampedDistance = s.dampedDistance := by
  unfold windStep
  simp

lemma windRun_params (rng : ℕ → ℝ) (n : ℕ) (s : WindState) :
    (windRun rng n s).2.1.destX = s.destX ∧ (windRun rng n s).2.1.destY = s.destY ∧
    (windRun rng n s).2.1.gravityMagnitude = s.gravityMagnitude ∧
    (windRun rng n s).2.1.windMagnitude = s.windMagnitude ∧
    (windRun rng n s).2.1.dampedDistance = s.dampedDistance := by
  induction n generalizing s with
  | zero => exact ⟨rfl, rfl, rfl, rfl, rfl⟩
  | succ n ih =>
    rw [windRun_succ]
    by_cases hc : windDist s ≥ 1
    · rw [if_pos hc]
      have h1 := windStep_params rng s
      have h2 := ih ((windStep rng s).1)
      dsimp only
      exact ⟨h2.1.trans h1.1, h2.2.1.trans h1.2.1, h2.2.2.1.trans h1.2.2.1,
        h2.2.2.2.1.trans h1.2.2.2.1, h2.2.2.2.2.trans h1.2.2.2.2⟩
    · rw [if_neg hc]
      exact ⟨rfl, rfl, rfl, rfl, rfl⟩

lemma windRun_done_dist (rng : ℕ → ℝ) (n : ℕ) (s : WindState)
    (pts : List (ℤ × ℤ)) (s' : WindState)
    (h : windRun rng n s = (pts, s', true)) : windDist s' < 1 := by
  induction n generalizing s pts with
  | zero =>
    rw [windRun_zero] at h
    injection h with h1 h2
    injection h2 with h2 h3
    simp at h3
  | succ n ih =>
    rw [windRun_succ] at h
    by_cases hc : windDist s ≥ 1
    · rw [if_pos hc] at h
      rcases hrun : windRun rng n (windStep rng s).1 with ⟨pts₁, s₁', d₁⟩
      rw [hrun] at h
      injection h with h1 h2
      injection h2 with h2 h3
      subst h2 h3
      exact ih _ _ hrun
    · rw [if_neg hc] at h
      injection h with h1 h2
      injection h2 with h2 h3
      subst h2
      exact not_le.mp hc

lemma movePhase_emit_inv {s s' : WindState} {e : ℤ × ℤ}
    (h : movePhase s = (s', some e)) : lastYieldInv s' e := by
  unfold movePhase at h
  split_ifs at h with hc
  · injection h with h1 h2
    injection h2 with h2
    subst h1
    subst h2
    exact ⟨rfl, rfl, Or.inr ⟨rfl, rfl⟩⟩
  · injection h with h1 h2
    simp at h2

lemma movePhase_silent_inv {s s' : WindState} {e : ℤ × ℤ}
    (h : movePhase s = (s', none)) (hinv : lastYieldInv s e) : lastYieldInv s' e := by
  unfold movePhase at h
  split_ifs at h with hc
  · injection h with h1 h2
    simp at h2
  · injection h with h1 h2
    subst h1
    push_neg at hc
    obtain ⟨hcx, hcy⟩ := hc
    obtain ⟨he1, he2, hd⟩ := hinv
    rcases hd with ⟨hdx, hdy⟩ | ⟨hdx, hdy⟩
    · have hex : e.1 = roundHalfEven (s.startX + s.velocityX) :=
        Int.cast_injective (α := ℝ) (by rw [← hdx, hcx])
      have hey : e.2 = roundHalfEven (s.startY + s.velocityY) :=
        Int.cast_injective (α := ℝ) (by rw [← hdy, hcy])
      exact ⟨hex, hey, Or.inl ⟨hdx, hdy⟩⟩
    · have hsx : s.startX = (roundHalfEven (s.startX + s.velocityX) : ℝ) := by
        conv_lhs => rw [← hdx]
        exact hcx
      have hsy : s.startY = (roundHalfEven (s.startY + s.velocityY) : ℝ) := by
        conv_lhs => rw [← hdy]
        exact hcy
      have hex : e.1 = roundHalfEven (s.startX + s.velocityX) := by
        rw [he1]
        conv_lhs => rw [hsx]
        exact roundHalfEven_intCast _
      have hey : e.2 = roundHalfEven (s.startY + s.velocityY) := by
        rw [he2]
        conv_lhs => rw [hsy]
        exact roundHalfEven_intCast _
      refine ⟨hex, hey, Or.inl ⟨?_, ?_⟩⟩
      · rw [hdx, hsx, hex]
      · rw [hdy, hsy, hey]

lemma windStep_emit_inv {rng : ℕ → ℝ} {s s' : WindState} {e : ℤ × ℤ}
    (h : windStep rng s = (s', some e)) : lastYieldInv s' e := by
  rw [windStep] at h
  exact movePhase_emit_inv h

lemma windStep_silent_inv {rng : ℕ → ℝ} {s s' : WindState} {e : ℤ × ℤ}
    (h : windStep rng s = (s', none)) (hinv : lastYieldInv s e) : lastYieldInv s' e := by
  rw [windStep] at h
  apply movePhase_silent_inv h
  unfold lastYieldInv at hinv ⊢
  simpa using hinv

lemma windRun_last_inv (rng : ℕ → ℝ) (n : ℕ) (s : WindState)
    (pts : List (ℤ × ℤ)) (s' : WindState) (d : Bool)
    (h : windRun rng n s = (pts, s', d)) :
    (∀ e, pts.getLast? = some e → lastYieldInv s' e) ∧
    (pts = [] → ∀ e, lastYieldInv s e → lastYieldInv s' e) := by
  induction n generalizing s pts d with
  | zero =>
    rw [windRun_zero] at h
    injection h with h1 h2
    injection h2 with h2 h3
    subst h1 h2
    exact ⟨fun e he => by simp at he, fun _ e hinv => hinv⟩
  | succ n ih =>
    rw [windRun_succ] at h
    by_cases hc : windDist s ≥ 1
    · rw [if_pos hc] at h
      rcases hstep : windStep rng s with ⟨s₁, e?⟩
      rw [hstep] at h
      rcases hrun : windRun rng n s₁ with ⟨pts₁, s₁', d₁⟩
      rw [hrun] at h
      injection h with h1 h2
      injection h2 with h2 h3
      subst h1 h2
      have IH := ih s₁ pts₁ d₁ hrun
      cases e? with
      | none =>
        simp only [Option.toList, List.nil_append]
        constructor
        · exact IH.1
        · intro hpts e hinv
          exact IH.2 hpts e (windStep_silent_inv hstep hinv)
      | some ev =>
        simp only [Option.toList, List.cons_append, List.nil_append]
        constructor
        · intro e he
          cases pts₁ with
          | nil =>
            simp only [List.getLast?_singleton, Option.some.injEq] at he
            subst he
            exact IH.2 rfl _ (windStep_emit_inv hstep)
          | cons b l =>
            rw [List.getLast?_cons_cons] at he
            exact IH.1 e he
        · intro hpts
          simp at hpts
    · rw [if_neg hc] at h
      injection h with h1 h2
      injection h2 with h2 h3
      subst h1 h2
      exact ⟨fun e he => by simp at he, fun _ e hinv => hinv⟩

lemma c1init : windMouseInit 0 0 100 0 5 3 1.2 12 = c1s0 := rfl

lemma c2init : windMouseInit 0 0 2 0 0.4 2 1.2 0.5 = c2s0 := rfl

lemma c3init : windMouseInit 0 0 10 0 9 3 (-1) 12 = c3s0 := rfl

/-- Claim C1: falsified by the code.  The generator
`wind_mouse(0, 0, 100, 0, gravity=5, wind=3, max_step=1.2, damped=12)`, fed
the draw stream `rngC1` (wind draws 1/2, clip draws 0 and 1/6), yields
`(1, 0)` twice in a row: after the first yield the source stores the
continuous position `0.6` (not the rounded point `1`) as the duplicate
reference, so when the next position `1.3` again rounds to `1` the comparison
`current_x != move_x` is `0.6 ≠ 1` and the same point is yielded again. -/
theorem wind_mouse_duplicate_consecutive_yield :
    (windRun rngC1 2 (windMouseInit 0 0 100 0 5 3 1.2 12)).1 = [(1, 0), (1, 0)] ∧
    ¬ List.Chain' (fun p q : ℤ × ℤ => p ≠ q)
      (windRun rngC1 2 (windMouseInit 0 0 100 0 5 3 1.2 12)).1 := by
  constructor
  · rw [c1init, c1_run]
  · rw [c1init, c1_run]
    simp

/-- Claim C2, counterexample: a terminating run of
`wind_mouse(0, 0, 2, 0, gravity=0.4, wind=2, max_step=1.2, damped=0.5)` whose
last (and only) yielded point `(1, 1)` lies at Euclidean distance `sqrt 2 > 1`
from the destination `(2, 0)`: the loop stops once the *continuous* position
is within distance 1, and rounding pushes the emitted point farther out. -/
theorem wind_mouse_last_yield_beyond_one_pixel :
    (windRun rngC2 3 (windMouseInit 0 0 2 0 0.4 2 1.2 0.5)).1 = [(1, 1)] ∧
    (windRun rngC2 3 (windMouseInit 0 0 2 0 0.4 2 1.2 0.5)).2.2 = true ∧
    1 < hypot (((1:ℤ) : ℝ) - 2) (((1:ℤ) : ℝ) - 0) := by
  refine ⟨?_, ?_, ?_⟩
  · rw [c2init, c2_run]
  · rw [c2init, c2_run]
  · exact lt_hypot_of_sq_lt (by norm_num) (by norm_num)

/-- Claim C2 as amended: in every terminating run of the generator the final
continuous position is within Euclidean distance 1 of the destination, so the
last yielded point — the rounding of a position the suppression logic keeps
synchronised with — lies within `1 + sqrt 2 / 2` of the destination (each
axis adds at most `1/2` of rounding error).  The bound 1 itself does not
hold, as the counterexample shows. -/
theorem wind_mouse_last_yield_near_dest (rng : ℕ → ℝ) (n : ℕ) (s : WindState)
    (pts : List (ℤ × ℤ)) (s' : WindState) (e : ℤ × ℤ)
    (hrun : windRun rng n s = (pts, s', true))
    (hlast : pts.getLast? = some e) :
    hypot ((e.1 : ℝ) - s.destX) ((e.2 : ℝ) - s.destY) < 1 + Real.sqrt 2 / 2 := by
  have hinv := (windRun_last_inv rng n s pts s' true hrun).1 e hlast
  have hdist := windRun_done_dist rng n s pts s' hrun
  have hp := windRun_params rng n s
  rw [hrun] at hp
  obtain ⟨he1, he2, -⟩ := hinv
  have hb1 : |(e.1 : ℝ) - s'.startX| ≤ 1 / 2 := by
    rw [he1]
    exact abs_roundHalfEven_sub_le _
  have hb2 : |(e.2 : ℝ) - s'.startY| ≤ 1 / 2 := by
    rw [he2]
    exact abs_roundHalfEven_sub_le _
  have hA : hypot ((e.1 : ℝ) - s'.startX) ((e.2 : ℝ) - s'.startY) ≤ Real.sqrt 2 / 2 := by
    apply hypot_le_of_sq_le (by positivity)
    have hs2 : (Real.sqrt 2 / 2) ^ 2 = 1 / 2 := by
      rw [div_pow, Real.sq_sqrt (by norm_num : (0:ℝ) ≤ 2)]
      norm_num
    rw [hs2]
    have q1 : ((e.1 : ℝ) - s'.startX) ^ 2 ≤ (1 / 2 : ℝ) ^ 2 := by
      rw [← sq_abs]
      exact pow_le_pow_left₀ (abs_nonneg _) hb1 2
    have q2 : ((e.2 : ℝ) - s'.startY) ^ 2 ≤ (1 / 2 : ℝ) ^ 2 := by
      rw [← sq_abs]
      exact pow_le_pow_left₀ (abs_nonneg _) hb2 2
    nlinarith [q1, q2]
  have hB : hypot (s'.startX - s.destX) (s'.startY - s.destY) < 1 := by
    have hw : windDist s' = hypot (s.destX - s'.startX) (s.destY - s'.startY) := by
      rw [windDist, hp.1, hp.2.1]
    have hsym : hypot (s'.startX - s.destX) (s'.startY - s.destY)
        = hypot (s.destX - s'.startX) (s.destY - s'.startY) := by
      rw [show s'.startX - s.destX = -(s.destX - s'.startX) by ring,
          show s'.startY - s.destY = -(s.destY - s'.startY) by ring, hypot_neg_neg]
    rw [hsym, ← hw]
    exact hdist
  have hsplit : hypot ((e.1 : ℝ) - s.destX) ((e.2 : ℝ) - s.destY)
      ≤ hypot ((e.1 : ℝ) - s'.startX) ((e.2 : ℝ) - s'.startY) +
        hypot (s'.startX - s.destX) (s'.startY - s.destY) := by
    have h := hypot_add_le ((e.1 : ℝ) - s'.startX) ((e.2 : ℝ) - s'.startY)
      (s'.startX - s.destX) (s'.startY - s.destY)
    have harg1 : (e.1 : ℝ) - s'.startX + (s'.startX - s.destX) = (e.1 : ℝ) - s.destX := by
      ring
    have harg2 : (e.2 : ℝ) - s'.startY + (s'.startY - s.destY) = (e.2 : ℝ) - s.destY := by
      ring
    rwa [harg1, harg2] at h
  calc hypot ((e.1 : ℝ) - s.destX) ((e.2 : ℝ) - s.destY)
      ≤ hypot ((e.1 : ℝ) - s'.startX) ((e.2 : ℝ) - s'.startY) +
        hypot (s'.startX - s.destX) (s'.startY - s.destY) := hsplit
    _ < Real.sqrt 2 / 2 + 1 := add_lt_add_of_le_of_lt hA hB
    _ = 1 + Real.sqrt 2 / 2 := by ring

/-- Witness for the amended C2 theorem at the concrete counterexample run:
its last yield `(1, 1)` is indeed within `1 + sqrt 2 / 2` of `(2, 0)`. -/
theorem wind_mouse_last_yield_near_dest_witness :
    hypot (((1:ℤ) : ℝ) - 2) (((1:ℤ) : ℝ) - 0) < 1 + Real.sqrt 2 / 2 := by
  have h := wind_mouse_last_yield_near_dest rngC2 3 c2s0 [(1, 1)] c2s2 (1, 1) c2_run rfl
  simpa [c2s0] using h

/-- Claim C3, counterexample: `wind_mouse` construction never raises;
with the out-of-domain `max_step = -1` (and all draws 0) the generator
produces the point `(2, 0)` instead of failing at construction time. -/
theorem wind_mouse_invalid_max_step_still_yields :
    ¬ (0 < (-1 : ℝ)) ∧
    (windRun (fun _ => 0) 1 (windMouseInit 0 0 10 0 9 3 (-1) 12)).1 = [(2, 0)] := by
  constructor
  · norm_num
  · rw [c3init, c3_run]

/-- Claim C3 as amended: no parameter validation exists; parameters are
stored unchecked by construction, and the only correction ever applied is
dynamic — on a damped-regime step a `max_step` below 3 (in particular any
non-positive one) is replaced by a fresh draw in `[3, 6)`. -/
theorem wind_mouse_unvalidated_max_step (rng : ℕ → ℝ) (s : WindState)
    (hm : s.maxStep ≤ 0) (hdist : windDist s < s.dampedDistance)
    (h0 : 0 ≤ rng s.rngIdx) (h1 : rng s.rngIdx < 1) :
    (windPhase rng s).maxStep = rng s.rngIdx * 3 + 3 ∧
    3 ≤ (windPhase rng s).maxStep ∧ (windPhase rng s).maxStep < 6 := by
  have hfree : ¬ (windDist s ≥ s.dampedDistance) := not_le.mpr hdist
  have h3 : s.maxStep < 3 := lt_of_le_of_lt hm (by norm_num)
  have hms : (windPhase rng s).maxStep = rng s.rngIdx * 3 + 3 := by
    unfold windPhase
    rw [if_neg hfree, if_pos h3]
  refine ⟨hms, ?_, ?_⟩ <;> rw [hms] <;> nlinarith

/-- Witness for the amended C3 theorem: with `max_step = -1` and zero draws
the first damped-regime step resets `max_step` into `[3, 6)`. -/
theorem wind_mouse_unvalidated_max_step_witness :
    3 ≤ (windPhase (fun _ => 0) (windMouseInit 0 0 10 0 9 3 (-1) 12)).maxStep ∧
    (windPhase (fun _ => 0) (windMouseInit 0 0 10 0 9 3 (-1) 12)).maxStep < 6 := by
  have hd : windDist (windMouseInit 0 0 10 0 9 3 (-1) 12)
      < (windMouseInit 0 0 10 0 9 3 (-1) 12).dampedDistance := by
    rw [c3init, c3_dist0]
    simp only [c3s0]
    norm_num
  have h := wind_mouse_unvalidated_max_step (fun _ => 0)
    (windMouseInit 0 0 10 0 9 3 (-1) 12)
    (by rw [c3init]; simp only [c3s0]; norm_num) hd le_rfl (by norm_num)
  exact ⟨h.2.1, h.2.2⟩

/-- Claim C4: once `_get_next_point` reports exhaustion, `tick()` returns
`false` with no backend call and leaves the controller unchanged, so every
later `tick()` for the same target also returns `false` with no backend
call; while points remain, `tick()` forwards exactly the next point to the
backend move primitive and returns `true`. -/
theorem controller_tick_exhaustion_contract (c : MouseController) :
    ((tick c).moved = false →
      (tick c).backendMoves = [] ∧ (tick c).ctrl = c ∧
      ∀ k, (tick (tickIter c k)).moved = false ∧ (tick (tickIter c k)).backendMoves = []) ∧
    (∀ p ps, c.remaining = p :: ps →
      (tick c).moved = true ∧ (tick c).backendMoves = [p] ∧
      (tick c).ctrl = MouseController.mk ps) := by
  obtain ⟨l⟩ := c
  cases l with
  | nil =>
    refine ⟨fun _ => ⟨rfl, rfl, fun k => ?_⟩, fun p ps h => by simp at h⟩
    have hiter : tickIter ⟨[]⟩ k = ⟨[]⟩ := by
      induction k with
      | zero => rfl
      | succ k ih => rw [tickIter, ih]; rfl
    rw [hiter]
    exact ⟨rfl, rfl⟩
  | cons p ps =>
    refine ⟨fun h => by simp [tick, getNextPoint] at h, fun q qs h => ?_⟩
    have hq : p = q ∧ ps = qs := by
      simpa using h
    obtain ⟨rfl, rfl⟩ := hq
    exact ⟨rfl, rfl, rfl⟩

/-- Witness for C4: an exhausted controller keeps answering `false` with no
backend call, and a one-point controller forwards that point. -/
theorem controller_tick_exhaustion_witness :
    (tick ⟨[]⟩).moved = false ∧
    (tick (tickIter ⟨[]⟩ 3)).moved = false ∧
    (tick (tickIter ⟨[]⟩ 3)).backendMoves = [] ∧
    (tick ⟨[(3, 4)]⟩).moved = true ∧
    (tick ⟨[(3, 4)]⟩).backendMoves = [(3, 4)] := by
  have h1 := (controller_tick_exhaustion_contract ⟨[]⟩).1 rfl
  have h2 := (controller_tick_exhaustion_contract ⟨[(3, 4)]⟩).2 (3, 4) [] rfl
  exact ⟨rfl, (h1.2.2 3).1, (h1.2.2 3).2, h2.1, h2.2.1⟩

/-- Claim C5: with `dest = start` the loop condition `dist >= 1` fails at
once (distance 0), so the generator yields no point, and the first `tick()`
of a controller over that generator returns `false` without any backend
move call. -/
theorem generator_zero_points_when_dest_eq_start (sx sy g w m d : ℝ)
    (rng : ℕ → ℝ) (fuel : ℕ) :
    (windRun rng fuel (windMouseInit sx sy sx sy g w m d)).1 = [] ∧
    (tick (mkController sx sy sx sy g w m d rng fuel)).moved = false ∧
    (tick (mkController sx sy sx sy g w m d rng fuel)).backendMoves = [] := by
  have hd : windDist (windMouseInit sx sy sx sy g w m d) = 0 := by
    simp [windDist, windMouseInit, hypot]
  have hrun : (windRun rng fuel (windMouseInit sx sy sx sy g w m d)).1 = [] := by
    cases fuel with
    | zero => rfl
    | succ n => rw [windRun_succ, if_neg (by rw [hd]; norm_num)]
  have hctrl : mkController sx sy sx sy g w m d rng fuel = ⟨[]⟩ := by
    unfold mkController
    rw [hrun]
  rw [hctrl]
  exact ⟨hrun, rfl, rfl⟩

/-- Claim C6: on a step taken at distance `dist >= damped_distance`, each wind
component is updated independently to
`wind / sqrt 3 + (2 * random() - 1) * min(wind_magnitude, dist) / sqrt 5`,
with distinct draws for the x and y components. -/
theorem wind_update_free_regime (rng : ℕ → ℝ) (s : WindState)
    (h : windDist s ≥ s.dampedDistance) :
    (windStep rng s).1.windX = s.windX / sqrt3 +
        (2 * rng s.rngIdx - 1) * min s.windMagnitude (windDist s) / sqrt5 ∧
    (windStep rng s).1.windY = s.windY / sqrt3 +
        (2 * rng (s.rngIdx + 1) - 1) * min s.windMagnitude (windDist s) / sqrt5 := by
  have hx : (windStep rng s).1.windX = (windPhase rng s).windX := by
    simp [windStep]
  have hy : (windStep rng s).1.windY = (windPhase rng s).windY := by
    simp [windStep]
  rw [hx, hy]
  unfold windPhase
  rw [if_pos h]
  exact ⟨rfl, rfl⟩

/-- Witness for C6 at distance 100 with `damped_distance = 12`. -/
theorem wind_update_free_regime_witness :
    (windStep rngC1 c1s0).1.windX = c1s0.windX / sqrt3 +
        (2 * rngC1 c1s0.rngIdx - 1) * min c1s0.windMagnitude (windDist c1s0) / sqrt5 ∧
    (windStep rngC1 c1s0).1.windY = c1s0.windY / sqrt3 +
        (2 * rngC1 (c1s0.rngIdx + 1) - 1) * min c1s0.windMagnitude (windDist c1s0) / sqrt5 :=
  wind_update_free_regime rngC1 c1s0 (by rw [c1_dist0]; simp only [c1s0]; norm_num)

/-- Claim C7: on a step taken at distance `dist < damped_distance`, both wind
components are only divided by `sqrt 3` (no new draw), and `max_step` is
replaced by `random() * 3 + 3 ∈ [3, 6)` when below 3, else divided by
`sqrt 5`. -/
theorem wind_update_damped_regime (rng : ℕ → ℝ) (s : WindState)
    (h : windDist s < s.dampedDistance) :
    (windStep rng s).1.windX = s.windX / sqrt3 ∧
    (windStep rng s).1.windY = s.windY / sqrt3 ∧
    (s.maxStep < 3 →
      (windStep rng s).1.maxStep = rng s.rngIdx * 3 + 3 ∧
      (0 ≤ rng s.rngIdx → rng s.rngIdx < 1 →
        3 ≤ (windStep rng s).1.maxStep ∧ (windStep rng s).1.maxStep < 6)) ∧
    (3 ≤ s.maxStep → (windStep rng s).1.maxStep = s.maxStep / sqrt5) := by
  have hx : (windStep rng s).1.windX = (windPhase rng s).windX := by
    simp [windStep]
  have hy : (windStep rng s).1.windY = (windPhase rng s).windY := by
    simp [windStep]
  have hms : (windStep rng s).1.maxStep = (windPhase rng s).maxStep := by
    simp [windStep]
  rw [hx, hy, hms]
  unfold windPhase
  rw [if_neg (not_le.mpr h)]
  by_cases h3 : s.maxStep < 3
  · rw [if_pos h3]
    refine ⟨rfl, rfl, fun _ => ⟨rfl, fun h0 h1 => ⟨?_, ?_⟩⟩,
      fun hge => absurd h3 (not_lt.mpr hge)⟩
    · show (3:ℝ) ≤ rng s.rngIdx * 3 + 3
      nlinarith
    · show rng s.rngIdx * 3 + 3 < (6:ℝ)
      nlinarith
  · rw [if_neg h3]
    exact ⟨rfl, rfl, fun hlt => absurd hlt h3, fun _ => rfl⟩

/-- Witness for C7 at distance 10 with `damped_distance = 12` and the
out-of-domain `max_step = -1`. -/
theorem wind_update_damped_regime_witness :
    (windStep (fun _ => 0) c3s0).1.windX = c3s0.windX / sqrt3 ∧
    (windStep (fun _ => 0) c3s0).1.maxStep = 0 * 3 + 3 ∧
    3 ≤ (windStep (fun _ => 0) c3s0).1.maxStep := by
  have h := wind_update_damped_regime (fun _ => 0) c3s0
    (by rw [c3_dist0]; simp only [c3s0]; norm_num)
  have h3 := h.2.2.1 (by simp only [c3s0]; norm_num)
  exact ⟨h.1, h3.1, (h3.2 le_rfl (by norm_num)).1⟩

lemma velocityPhase_noclip (rng : ℕ → ℝ) (u : WindState)
    (hle : hypot (accVX u) (accVY u) ≤ u.maxStep) :
    (velocityPhase rng u).velocityX = accVX u ∧
    (velocityPhase rng u).velocityY = accVY u := by
  unfold velocityPhase
  rw [if_neg (not_lt.mpr hle)]
  exact ⟨rfl, rfl⟩

lemma velocityPhase_clip (rng : ℕ → ℝ) (u : WindState)
    (hgt : u.maxStep < hypot (accVX u) (accVY u)) :
    (velocityPhase rng u).velocityX = accVX u / hypot (accVX u) (accVY u) *
      (u.maxStep / 2 + rng u.rngIdx * u.maxStep / 2) ∧
    (velocityPhase rng u).velocityY = accVY u / hypot (accVX u) (accVY u) *
      (u.maxStep / 2 + rng u.rngIdx * u.maxStep / 2) := by
  unfold velocityPhase
  rw [if_pos hgt]
  exact ⟨rfl, rfl⟩

lemma velocityPhase_clip_norm (rng : ℕ → ℝ) (u : WindState)
    (hm : 0 < u.maxStep) (h0 : 0 ≤ rng u.rngIdx)
    (hgt : u.maxStep < hypot (accVX u) (accVY u)) :
    hypot (velocityPhase rng u).velocityX (velocityPhase rng u).velocityY
      = u.maxStep / 2 + rng u.rngIdx * u.maxStep / 2 := by
  obtain ⟨hvx, hvy⟩ := velocityPhase_clip rng u hgt
  rw [hvx, hvy]
  have hvm : 0 < hypot (accVX u) (accVY u) := lt_trans hm hgt
  have hk : 0 < u.maxStep / 2 + rng u.rngIdx * u.maxStep / 2 := by nlinarith
  have h1 : accVX u / hypot (accVX u) (accVY u) *
      (u.maxStep / 2 + rng u.rngIdx * u.maxStep / 2) =
      ((u.maxStep / 2 + rng u.rngIdx * u.maxStep / 2) / hypot (accVX u) (accVY u)) *
        accVX u := by
    ring
  have h2 : accVY u / hypot (accVX u) (accVY u) *
      (u.maxStep / 2 + rng u.rngIdx * u.maxStep / 2) =
      ((u.maxStep / 2 + rng u.rngIdx * u.maxStep / 2) / hypot (accVX u) (accVY u)) *
        accVY u := by
    ring
  rw [h1, h2, hypot_mul, abs_of_pos (div_pos hk hvm)]
  rw [div_mul_cancel₀ _ (ne_of_gt hvm)]

/-- Claim C8: the step's velocity is the one produced by the accumulate-and-
clip stage; when the accumulated magnitude exceeds `max_step` the velocity is
rescaled — with a single draw shared by both axes — to the random magnitude
`max_step / 2 + random() * max_step / 2 ∈ [max_step/2, max_step]`, preserving
its direction (a positive scalar multiple); otherwise it is unchanged. -/
theorem velocity_accumulate_and_clip (rng : ℕ → ℝ) (s t : WindState)
    (ht : t = windPhase rng s) (hm : 0 < t.maxStep)
    (h0 : 0 ≤ rng t.rngIdx) (h1 : rng t.rngIdx < 1) :
    ((windStep rng s).1.velocityX = (velocityPhase rng t).velocityX ∧
      (windStep rng s).1.velocityY = (velocityPhase rng t).velocityY) ∧
    (hypot (accVX t) (accVY t) ≤ t.maxStep →
      (velocityPhase rng t).velocityX = accVX t ∧
      (velocityPhase rng t).velocityY = accVY t) ∧
    (t.maxStep < hypot (accVX t) (accVY t) →
      ((velocityPhase rng t).velocityX = accVX t / hypot (accVX t) (accVY t) *
          (t.maxStep / 2 + rng t.rngIdx * t.maxStep / 2) ∧
        (velocityPhase rng t).velocityY = accVY t / hypot (accVX t) (accVY t) *
          (t.maxStep / 2 + rng t.rngIdx * t.maxStep / 2)) ∧
      hypot (velocityPhase rng t).velocityX (velocityPhase rng t).velocityY =
        t.maxStep / 2 + rng t.rngIdx * t.maxStep / 2 ∧
      t.maxStep / 2 ≤ t.maxStep / 2 + rng t.rngIdx * t.maxStep / 2 ∧
      t.maxStep / 2 + rng t.rngIdx * t.maxStep / 2 ≤ t.maxStep ∧
      ∃ c : ℝ, 0 < c ∧ (velocityPhase rng t).velocityX = c * accVX t ∧
        (velocityPhase rng t).velocityY = c * accVY t) := by
  refine ⟨?_, velocityPhase_noclip rng t, fun hgt => ?_⟩
  · subst ht
    exact ⟨by simp [windStep], by simp [windStep]⟩
  · have hvm : 0 < hypot (accVX t) (accVY t) := lt_trans hm hgt
    have hk : 0 < t.maxStep / 2 + rng t.rngIdx * t.maxStep / 2 := by nlinarith
    refine ⟨velocityPhase_clip rng t hgt, velocityPhase_clip_norm rng t hm h0 hgt,
      by nlinarith, by nlinarith, ?_⟩
    refine ⟨(t.maxStep / 2 + rng t.rngIdx * t.maxStep / 2) / hypot (accVX t) (accVY t),
      div_pos hk hvm, ?_, ?_⟩
    · rw [(velocityPhase_clip rng t hgt).1]
      ring
    · rw [(velocityPhase_clip rng t hgt).2]
      ring

/-- Witness for C8 at the first step of the duplicate-yield run: the
accumulated velocity `(5, 0)` of magnitude 5 exceeds `max_step = 1.2` and is
clipped to the drawn magnitude `0.6`. -/
theorem velocity_accumulate_and_clip_witness :
    hypot (velocityPhase rngC1 c1s0a).velocityX (velocityPhase rngC1 c1s0a).velocityY
      = c1s0a.maxStep / 2 + rngC1 c1s0a.rngIdx * c1s0a.maxStep / 2 := by
  have hd : windDist c1s0a = (100:ℝ) := c1_dist0
  have haX : accVX c1s0a = 5 := by
    rw [accVX, hd]
    simp only [c1s0a, c1s0]
    norm_num
  have haY : accVY c1s0a = 0 := by
    rw [accVY, hd]
    simp only [c1s0a, c1s0]
    norm_num
  have hgt : c1s0a.maxStep < hypot (accVX c1s0a) (accVY c1s0a) := by
    rw [haX, haY, hypot_of_sq (by norm_num : (0:ℝ) ≤ 5) (by norm_num)]
    simp only [c1s0a, c1s0]
    norm_num
  have h := velocity_accumulate_and_clip rngC1 c1s0 c1s0a c1_phaseA.symm
    (by simp only [c1s0a, c1s0]; norm_num)
    (by simp only [c1s0a, c1s0, rngC1]; norm_num)
    (by simp only [c1s0a, c1s0, rngC1]; norm_num)
  exact ((h.2.2 hgt).2).1

/-- Claim C9: the yielded sequence is a function of start, destination,
parameters and the draw stream alone — equal inputs and equal draw streams
give equal sequences. -/
theorem wind_mouse_deterministic
    (sx sy dx dy g w m d sx' sy' dx' dy' g' w' m' d' : ℝ)
    (rng rng' : ℕ → ℝ) (n n' : ℕ)
    (hargs : (sx, sy, dx, dy, g, w, m, d) = (sx', sy', dx', dy', g', w', m', d'))
    (hrng : rng = rng') (hn : n = n') :
    (windRun rng n (windMouseInit sx sy dx dy g w m d)).1 =
      (windRun rng' n' (windMouseInit sx' sy' dx' dy' g' w' m' d')).1 := by
  simp only [Prod.mk.injEq] at hargs
  obtain ⟨rfl, rfl, rfl, rfl, rfl, rfl, rfl, rfl⟩ := hargs
  subst hrng hn
  rfl

/-- Witness for C9 at the convergence-run inputs. -/
theorem wind_mouse_deterministic_witness :
    (windRun rngC2 3 (windMouseInit 0 0 2 0 0.4 2 1.2 0.5)).1 =
      (windRun rngC2 3 (windMouseInit 0 0 2 0 0.4 2 1.2 0.5)).1 :=
  wind_mouse_deterministic 0 0 2 0 0.4 2 1.2 0.5 0 0 2 0 0.4 2 1.2 0.5
    rngC2 rngC2 3 3 rfl rfl rfl

/-- Claim C10: of the four physical parameters only `max_step` is ever
reassigned; gravity, wind magnitude and damped distance are unchanged by
every single step and throughout any run. -/
theorem physical_params_immutable_except_max_step (rng : ℕ → ℝ) (n : ℕ)
    (s : WindState) :
    (windStep rng s).1.gravityMagnitude = s.gravityMagnitude ∧
    (windStep rng s).1.windMagnitude = s.windMagnitude ∧
    (windStep rng s).1.dampedDistance = s.dampedDistance ∧
    (windRun rng n s).2.1.gravityMagnitude = s.gravityMagnitude ∧
    (windRun rng n s).2.1.windMagnitude = s.windMagnitude ∧
    (windRun rng n s).2.1.dampedDistance = s.dampedDistance := by
  have h1 := windStep_params rng s
  have h2 := windRun_params rng n s
  exact ⟨h1.2.2.1, h1.2.2.2.1, h1.2.2.2.2, h2.2.2.1, h2.2.2.2.1, h2.2.2.2.2⟩

end
